import Mathlib

/-!
Verification of the audio-reactive image switcher in src/main.rs
(potistudio/Darwin). The development shallowly embeds the program: f32
samples become reals, byte buffers become lists of naturals, the audio
callback becomes a function from the sample block and the previously stored
index to the newly stored index, and startup image-bank construction becomes
a function of the per-path load outcomes.
-/

/- ### Loudness detector: setup_audio_capture, main.rs lines 91-113 -/

/-- The fixed loudness threshold, line 91: `let threshold = 0.001f32`. -/
def threshold : ℝ := 0.001

/-- Sum of squared samples, line 99: `data.iter().map(|&s| s * s).sum()`. -/
def sumSquares (data : List ℝ) : ℝ := (data.map fun s => s * s).sum

/-- RMS of a block, line 100: `(sum / data.len() as f32).sqrt()`. The f32
samples are modelled as reals. On an empty block the source divides 0.0 by
0.0 with no guard, giving NaN in f32; in this embedding 0 / 0 = 0. Both NaN
and 0 compare false against the positive threshold, so the branch taken by
the callback agrees with the source on every block. -/
noncomputable def rms (data : List ℝ) : ℝ :=
  Real.sqrt (sumSquares data / data.length)

/-- One invocation of the audio callback, lines 97-113: from the sample block
and the previously stored index to the index stored into the shared atomic
cell (`current_index.store(1, ...)` / `current_index.store(0, ...)`). The
source also refreshes a mutex-guarded timestamp on the loud branch; that
timestamp never influences the stored index and is omitted. -/
noncomputable def audioCallback (data : List ℝ) (prev : ℕ) : ℕ :=
  if rms data > threshold then 1 else 0

/-- Value of the shared cell after the audio thread has processed the given
blocks in order, starting from the initial value 0 set in main, line 173:
`Arc::new(AtomicUsize::new(0))`. -/
noncomputable def indexAfter (blocks : List (List ℝ)) : ℕ :=
  blocks.foldl (fun prev data => audioCallback data prev) 0

/-- Loudness measure as the spec words it, for the refinement claim C2: the
square root of the mean of the squared samples of the flat block. -/
noncomputable def specLoudness (data : List ℝ) : ℝ :=
  Real.sqrt ((data.map fun s => s ^ 2).sum / data.length)

/- ### Helper lemmas about the detector -/

theorem sumSquares_nil : sumSquares [] = 0 := rfl

theorem sumSquares_cons (a : ℝ) (l : List ℝ) :
    sumSquares (a :: l) = a * a + sumSquares l := by
  simp [sumSquares]

theorem sumSquares_map_mul (k : ℝ) (data : List ℝ) :
    sumSquares (data.map fun s => k * s) = k ^ 2 * sumSquares data := by
  induction data with
  | nil => simp [sumSquares]
  | cons a l ih =>
      rw [List.map_cons, sumSquares_cons, sumSquares_cons, ih]
      ring

theorem rms_one : rms [(1 : ℝ)] = 1 := by
  unfold rms sumSquares
  norm_num

theorem audioCallback_one (p : ℕ) : audioCallback [(1 : ℝ)] p = 1 := by
  unfold audioCallback
  rw [if_pos]
  rw [gt_iff_lt, rms_one]
  norm_num [threshold]

theorem audioCallback_le_one (data : List ℝ) (p : ℕ) :
    audioCallback data p ≤ 1 := by
  unfold audioCallback
  split <;> omega

theorem foldl_audioCallback_le_one (blocks : List (List ℝ)) (p : ℕ)
    (hp : p ≤ 1) :
    blocks.foldl (fun prev data => audioCallback data prev) p ≤ 1 := by
  induction blocks generalizing p with
  | nil => exact hp
  | cons b l ih => exact ih _ (audioCallback_le_one b p)

theorem indexAfter_le_one (blocks : List (List ℝ)) : indexAfter blocks ≤ 1 :=
  foldl_audioCallback_le_one blocks 0 (by omega)

/- ### Claim theorems for the detector -/

/-- C1: for every sample block, the callback stores 1 exactly when the
block's RMS strictly exceeds the fixed threshold 0.001 and stores 0 when the
RMS is at or below it, and the stored index does not depend on the previously
stored index: it is a pure function of the current block. -/
theorem callback_threshold_pure (data : List ℝ) (p q : ℕ) :
    (threshold < rms data → audioCallback data p = 1) ∧
    (rms data ≤ threshold → audioCallback data p = 0) ∧
    audioCallback data p = audioCallback data q := by
  refine ⟨fun h => ?_, fun h => ?_, rfl⟩
  · unfold audioCallback
    rw [if_pos (gt_iff_lt.mpr h)]
  · unfold audioCallback
    rw [if_neg (by rw [gt_iff_lt]; exact not_lt.mpr h)]

/-- C1 witness: the one-sample block [1] has RMS 1 above the threshold, and
the callback stores 1 regardless of the prior index 5 or 0. -/
theorem callback_threshold_pure_witness :
    threshold < rms [(1 : ℝ)] ∧ audioCallback [(1 : ℝ)] 5 = 1 ∧
    audioCallback [(1 : ℝ)] 5 = audioCallback [(1 : ℝ)] 0 := by
  have h : threshold < rms [(1 : ℝ)] := by
    rw [rms_one]; norm_num [threshold]
  exact ⟨h, (callback_threshold_pure [(1 : ℝ)] 5 0).1 h,
    (callback_threshold_pure [(1 : ℝ)] 5 0).2.2⟩

/-- C2: the loudness the callback computes equals sqrt(mean(sample^2)), the
square root of the sum of squares of all samples divided by the block length,
over the block as one flat sequence. -/
theorem rms_eq_specLoudness (data : List ℝ) : rms data = specLoudness data := by
  unfold rms specLoudness sumSquares
  congr 2
  simp [pow_two]

/-- C7: on blocks of non-negative samples the RMS is non-negative (indeed it
is non-negative on every block), and scaling every sample by a factor k
scales the RMS by the absolute value of k. -/
theorem rms_nonneg_homogeneous (data : List ℝ) (k : ℝ)
    (h : ∀ x ∈ data, 0 ≤ x) :
    0 ≤ rms data ∧ rms (data.map fun s => k * s) = |k| * rms data := by
  refine ⟨Real.sqrt_nonneg _, ?_⟩
  unfold rms
  rw [sumSquares_map_mul, List.length_map, mul_div_assoc,
    Real.sqrt_mul (sq_nonneg k), Real.sqrt_sq_eq_abs]

/-- C7 witness: the non-negative block [1, 2] scaled by -2. -/
theorem rms_nonneg_homogeneous_witness :
    (∀ x ∈ [(1 : ℝ), 2], 0 ≤ x) ∧
    (0 ≤ rms [(1 : ℝ), 2] ∧
      rms ([(1 : ℝ), 2].map fun s => (-2) * s) = |(-2 : ℝ)| * rms [(1 : ℝ), 2]) := by
  have h : ∀ x ∈ [(1 : ℝ), 2], 0 ≤ x := by
    intro x hx
    rcases List.mem_cons.mp hx with rfl | hx
    · norm_num
    · rcases List.mem_singleton.mp hx with rfl
      norm_num
  exact ⟨h, rms_nonneg_homogeneous [(1 : ℝ), 2] (-2) h⟩

/-- C10: on an empty sample block the callback divides the sum 0 by the
length 0 with no zero-length guard; the threshold comparison is false (the
f32 quotient is NaN, modelled here as 0 / 0 = 0, and neither exceeds 0.001),
so the callback stores 0; the embedding is a total function, matching the
absence of a panic in the source. -/
theorem empty_block_stores_zero (p : ℕ) :
    rms [] = Real.sqrt (0 / 0) ∧ ¬ threshold < rms [] ∧
    audioCallback [] p = 0 := by
  have h0 : rms [] = Real.sqrt (0 / 0) := by
    unfold rms sumSquares
    norm_num
  have h1 : rms [] = 0 := by
    rw [h0]
    norm_num [Real.sqrt_zero]
  refine ⟨h0, ?_, ?_⟩
  · rw [h1]; norm_num [threshold]
  · unfold audioCallback
    rw [if_neg]
    rw [gt_iff_lt, h1]
    norm_num [threshold]

/-- C10 witness: the empty block with prior index 0 concretely stores 0. -/
theorem empty_block_stores_zero_witness : audioCallback [] 0 = 0 :=
  (empty_block_stores_zero 0).2.2

/- ### Render loop: main.rs lines 246-259 (RedrawRequested handler) -/

/-- One redraw step, lines 250-259: the index read from the shared cell and
the current frame bytes map to the frame bytes after the handler. When
`idx < images.len()` and `frame.len() == image_data.len()` the handler runs
`frame.copy_from_slice(image_data)`, replacing the frame verbatim; in every
other case the frame is untouched. Byte buffers are lists of naturals. -/
def renderFrame (images : List (List ℕ)) (idx : ℕ) (frame : List ℕ) :
    List ℕ :=
  if h : idx < images.length then
    let image_data := images.get ⟨idx, h⟩
    if frame.length = image_data.length then image_data else frame
  else frame

/-- C3: a redraw replaces the frame with the selected buffer's bytes exactly
when the index is within the bank and the byte lengths agree, and leaves the
frame bytes entirely unchanged in every other case; the step is a total
function, so no error is raised. -/
theorem renderFrame_copy_or_skip (images : List (List ℕ)) (idx : ℕ)
    (frame : List ℕ) :
    (∀ h : idx < images.length,
      frame.length = (images.get ⟨idx, h⟩).length →
        renderFrame images idx frame = images.get ⟨idx, h⟩) ∧
    (∀ h : idx < images.length,
      frame.length ≠ (images.get ⟨idx, h⟩).length →
        renderFrame images idx frame = frame) ∧
    (images.length ≤ idx → renderFrame images idx frame = frame) := by
  refine ⟨fun h hlen => ?_, fun h hlen => ?_, fun h => ?_⟩
  · unfold renderFrame
    rw [dif_pos h, if_pos hlen]
  · unfold renderFrame
    rw [dif_pos h, if_neg hlen]
  · unfold renderFrame
    rw [dif_neg (not_lt.mpr h)]

/-- C3 witness: index 1 into a two-image bank with matching byte lengths
replaces the frame; this is scenario C of the spec at a small size. -/
theorem renderFrame_copy_or_skip_witness :
    1 < ([[1, 2], [3, 4]] : List (List ℕ)).length ∧
    ([9, 9] : List ℕ).length = ([3, 4] : List ℕ).length ∧
    renderFrame [[1, 2], [3, 4]] 1 [9, 9] = [3, 4] :=
  ⟨by decide, by decide,
    (renderFrame_copy_or_skip [[1, 2], [3, 4]] 1 [9, 9]).1 (by decide)
      (by decide)⟩

/- ### Audio device selection: find_loopback_device (lines 46-78) and the
device choice in setup_audio_capture (lines 84-86) -/

/-- An input device as the selector sees it: `device.name()` returns a
Result, modelled as an optional name. -/
structure Device where
  name : Option String

/-- The fixed loopback-identifier keywords, lines 64-68. -/
def loopbackKeywords : List String :=
  ["blackhole", "soundflower", "loopback", "eqmac", "multi-output"]

/-- Rust str::to_lowercase, line 63, modelled per character on the char
sequence of the name. -/
def lowercase (s : String) : List Char := s.data.map Char.toLower

/-- Rust str::contains, lines 64-68: the pattern occurs as a contiguous
substring. -/
def strContains (hay : List Char) (needle : String) : Bool :=
  decide (needle.data <:+: hay)

/-- The test applied to each enumerated device, lines 62-69: the name must be
readable and, lowercased, contain one of the keywords. -/
def deviceMatches (d : Device) : Bool :=
  match d.name with
  | some n => loopbackKeywords.any fun k => strContains (lowercase n) k
  | none => false

/-- find_loopback_device, lines 46-78: the first input device that matches,
none when the enumeration fails or nothing matches. The diagnostic logging
loop has no effect on the result and is omitted. -/
def find_loopback_device (devices : Option (List Device)) : Option Device :=
  match devices with
  | some ds => ds.find? deviceMatches
  | none => none

/-- Device choice in setup_audio_capture, lines 84-86:
`find_loopback_device().or_else(|| host.default_input_device()).context("No input device available")`. -/
def selectInputDevice (devices : Option (List Device))
    (default_input : Option Device) : Except String Device :=
  match (find_loopback_device devices).orElse fun _ => default_input with
  | some d => Except.ok d
  | none => Except.error "No input device available"

theorem find_loopback_device_some (ds : List Device) :
    find_loopback_device (some ds) = ds.find? deviceMatches := rfl

theorem find?_eq_get_of_first {α : Type} (p : α → Bool) (l : List α) (i : ℕ)
    (hi : i < l.length) (hp : p (l.get ⟨i, hi⟩) = true)
    (hbefore : ∀ j (hj : j < i), p (l.get ⟨j, hj.trans hi⟩) = false) :
    l.find? p = some (l.get ⟨i, hi⟩) := by
  induction l generalizing i with
  | nil => simp at hi
  | cons a t ih =>
      cases i with
      | zero => exact List.find?_cons_of_pos t hp
      | succ k =>
          have ha : p a = false := hbefore 0 (Nat.succ_pos k)
          rw [List.find?_cons_of_neg t (by simp [ha])]
          exact ih k (Nat.lt_of_succ_lt_succ hi) hp
            fun j hj => hbefore (j + 1) (Nat.succ_lt_succ hj)

/-- C6: device selection returns the first enumerated device whose name,
lowercased, contains one of the keywords "blackhole", "soundflower",
"loopback", "eqmac", "multi-output"; when no device matches it falls back to
the default input device; when that is also absent it fails with the
"No input device available" error. The selection is one total function of
the enumeration, run once with no retry. -/
theorem selectInputDevice_policy (devices : List Device) (dflt : Option Device)
    (d : Device) :
    (∀ (i : ℕ) (hi : i < devices.length),
      deviceMatches (devices.get ⟨i, hi⟩) = true →
      (∀ (j : ℕ) (hj : j < i), deviceMatches (devices.get ⟨j, hj.trans hi⟩) = false) →
      selectInputDevice (some devices) dflt = Except.ok (devices.get ⟨i, hi⟩)) ∧
    ((∀ x ∈ devices, deviceMatches x = false) →
      selectInputDevice (some devices) (some d) = Except.ok d) ∧
    ((∀ x ∈ devices, deviceMatches x = false) →
      selectInputDevice (some devices) none =
        Except.error "No input device available") := by
  have hnone : (∀ x ∈ devices, deviceMatches x = false) →
      find_loopback_device (some devices) = none := by
    intro h
    rw [find_loopback_device_some]
    exact List.find?_eq_none.mpr fun x hx => by simp [h x hx]
  refine ⟨fun i hi hp hbefore => ?_, fun h => ?_, fun h => ?_⟩
  · unfold selectInputDevice
    rw [find_loopback_device_some,
      find?_eq_get_of_first deviceMatches devices i hi hp hbefore]
    rfl
  · unfold selectInputDevice
    rw [hnone h]
    rfl
  · unfold selectInputDevice
    rw [hnone h]
    rfl

/-- C6 witness: a microphone followed by a BlackHole device; the BlackHole
device at position 1 is chosen even with no default input available. -/
theorem selectInputDevice_policy_witness :
    deviceMatches (Device.mk (some "BlackHole 2ch")) = true ∧
    deviceMatches (Device.mk (some "MacBook Microphone")) = false ∧
    selectInputDevice
        (some [Device.mk (some "MacBook Microphone"),
               Device.mk (some "BlackHole 2ch")]) none =
      Except.ok (Device.mk (some "BlackHole 2ch")) := by
  refine ⟨by decide, by decide, ?_⟩
  exact (selectInputDevice_policy
      [Device.mk (some "MacBook Microphone"), Device.mk (some "BlackHole 2ch")]
      none (Device.mk none)).1 1 (by decide) (by decide)
    (fun j hj => by
      have hj0 : j = 0 := by omega
      subst hj0
      show deviceMatches (Device.mk (some "MacBook Microphone")) = false
      decide)

/- ### Image bank construction: main, lines 134-170 -/

/-- Configured source image paths, line 134. -/
def image_paths : List String := ["image1.jpg", "image2.jpg"]

/-- Canvas width, line 137. -/
def width : ℕ := 1664

/-- Canvas height, line 138. -/
def height : ℕ := 1080

/-- The loading loop, lines 141-152: for each configured path the external
decode-and-resize either yields an RGBA buffer or nothing (file missing, or
image::open fails); buffers of successful loads are pushed in order. -/
def loadImages (loads : List (Option (List ℕ))) : List (List ℕ) :=
  loads.filterMap id

/-- Demo-loop index sequence, line 160: `(0..size).step_by(4)`, the multiples
of 4 below size. -/
def demoIndices (size : ℕ) : List ℕ :=
  (List.range size).filter fun i => i % 4 = 0

/-- Red writes of one demo-loop iteration, lines 162-163:
`red_buffer[i] = 0x88; red_buffer[i + 3] = 0xff`. -/
def demoWriteRed (buf : List ℕ) (i : ℕ) : List ℕ :=
  (buf.set i 0x88).set (i + 3) 0xff

/-- Blue writes of one demo-loop iteration, lines 165-166:
`blue_buffer[i + 2] = 0x88; blue_buffer[i + 3] = 0xff`. -/
def demoWriteBlue (buf : List ℕ) (i : ℕ) : List ℕ :=
  (buf.set (i + 2) 0x88).set (i + 3) 0xff

/-- The red demo buffer: `vec![0u8; size]` (line 158) after the red writes of
the loop. -/
def red_buffer (size : ℕ) : List ℕ :=
  (demoIndices size).foldl demoWriteRed (List.replicate size 0)

/-- The blue demo buffer: `vec![0u8; size]` (line 159) after the blue writes
of the loop. -/
def blue_buffer (size : ℕ) : List ℕ :=
  (demoIndices size).foldl demoWriteBlue (List.replicate size 0)

/-- Image-bank construction, lines 141-170: the successfully loaded buffers,
or the red and blue demo buffers of `size = (width * height * 4)` (line 157)
when nothing loaded. -/
def buildImageBank (loads : List (Option (List ℕ))) : List (List ℕ) :=
  if (loadImages loads).isEmpty then
    [red_buffer (width * height * 4), blue_buffer (width * height * 4)]
  else loadImages loads

/-- One red demo pixel as laid down by lines 162-163. -/
def redPixel : List ℕ := [0x88, 0, 0, 0xff]

/-- One blue demo pixel as laid down by lines 165-166. -/
def bluePixel : List ℕ := [0, 0, 0x88, 0xff]

/- ### Helper lemmas about the demo buffers -/

theorem mem_demoIndices (s i : ℕ) : i ∈ demoIndices s ↔ i < s ∧ i % 4 = 0 := by
  simp [demoIndices, List.mem_filter, List.mem_range]

theorem demoIndices_succ4 (n : ℕ) :
    demoIndices (4 * (n + 1)) = demoIndices (4 * n) ++ [4 * n] := by
  unfold demoIndices
  rw [show 4 * (n + 1) = 4 * n + 1 + 1 + 1 + 1 by ring, List.range_succ,
    List.range_succ, List.range_succ, List.range_succ]
  have h0 : (4 * n) % 4 = 0 := by omega
  have h1 : ¬ (4 * n + 1) % 4 = 0 := by omega
  have h2 : ¬ (4 * n + 1 + 1) % 4 = 0 := by omega
  have h3 : ¬ (4 * n + 1 + 1 + 1) % 4 = 0 := by omega
  simp [List.filter_append, h0, h1, h2, h3]

theorem foldl_write_append {f : List ℕ → ℕ → List ℕ}
    (hlen : ∀ buf i, (f buf i).length = buf.length)
    (hsplit : ∀ buf t i, i + 3 < buf.length → f (buf ++ t) i = f buf i ++ t)
    (idxs : List ℕ) (buf t : List ℕ) (h : ∀ i ∈ idxs, i + 3 < buf.length) :
    idxs.foldl f (buf ++ t) = idxs.foldl f buf ++ t := by
  induction idxs generalizing buf with
  | nil => rfl
  | cons i l ih =>
      rw [List.foldl_cons, List.foldl_cons,
        hsplit buf t i (h i (List.mem_cons_self i l))]
      exact ih (f buf i) fun j hj => by
        rw [hlen buf i]
        exact h j (List.mem_cons_of_mem i hj)

theorem demoWriteRed_length (buf : List ℕ) (i : ℕ) :
    (demoWriteRed buf i).length = buf.length := by
  simp [demoWriteRed]

theorem demoWriteBlue_length (buf : List ℕ) (i : ℕ) :
    (demoWriteBlue buf i).length = buf.length := by
  simp [demoWriteBlue]

theorem demoWriteRed_append (buf t : List ℕ) (i : ℕ)
    (h : i + 3 < buf.length) :
    demoWriteRed (buf ++ t) i = demoWriteRed buf i ++ t := by
  unfold demoWriteRed
  rw [List.set_append_left _ _ (by omega),
    List.set_append_left _ _ (by rw [List.length_set]; omega)]

theorem demoWriteBlue_append (buf t : List ℕ) (i : ℕ)
    (h : i + 3 < buf.length) :
    demoWriteBlue (buf ++ t) i = demoWriteBlue buf i ++ t := by
  unfold demoWriteBlue
  rw [List.set_append_left _ _ (by omega),
    List.set_append_left _ _ (by rw [List.length_set]; omega)]

theorem demoWriteRed_at_end (buf : List ℕ) :
    demoWriteRed (buf ++ [0, 0, 0, 0]) buf.length = buf ++ redPixel := by
  unfold demoWriteRed
  rw [List.set_append_right _ _ (Nat.le_refl buf.length), Nat.sub_self]
  show (buf ++ [0x88, 0, 0, 0]).set (buf.length + 3) 0xff = buf ++ redPixel
  rw [List.set_append_right _ _ (by omega),
    show buf.length + 3 - buf.length = 3 by omega]
  rfl

theorem demoWriteBlue_at_end (buf : List ℕ) :
    demoWriteBlue (buf ++ [0, 0, 0, 0]) buf.length = buf ++ bluePixel := by
  unfold demoWriteBlue
  rw [List.set_append_right _ _ (by omega),
    show buf.length + 2 - buf.length = 2 by omega]
  show (buf ++ [0, 0, 0x88, 0]).set (buf.length + 3) 0xff = buf ++ bluePixel
  rw [List.set_append_right _ _ (by omega),
    show buf.length + 3 - buf.length = 3 by omega]
  rfl

theorem length_flatten_replicate (n : ℕ) (p : List ℕ) :
    ((List.replicate n p).flatten).length = n * p.length := by
  induction n with
  | zero => simp
  | succ m ih =>
      rw [List.replicate_succ, List.flatten_cons, List.length_append, ih]
      ring

theorem red_buffer_flatten (n : ℕ) :
    red_buffer (4 * n) = (List.replicate n redPixel).flatten := by
  induction n with
  | zero => rfl
  | succ m ih =>
      unfold red_buffer
      rw [demoIndices_succ4, List.foldl_append,
        show 4 * (m + 1) = 4 * m + 4 by ring, List.replicate_add,
        show List.replicate 4 (0 : ℕ) = [0, 0, 0, 0] from rfl,
        foldl_write_append demoWriteRed_length demoWriteRed_append _ _ _
          (fun i hi => by
            rw [List.length_replicate]
            have hm := (mem_demoIndices (4 * m) i).mp hi
            omega)]
      rw [List.foldl_cons, List.foldl_nil]
      rw [show (demoIndices (4 * m)).foldl demoWriteRed
          (List.replicate (4 * m) 0) = red_buffer (4 * m) from rfl, ih]
      have hL : ((List.replicate m redPixel).flatten).length = 4 * m := by
        rw [length_flatten_replicate]
        show m * 4 = 4 * m
        ring
      rw [← hL, demoWriteRed_at_end, List.replicate_succ',
        List.flatten_append]
      rfl

theorem blue_buffer_flatten (n : ℕ) :
    blue_buffer (4 * n) = (List.replicate n bluePixel).flatten := by
  induction n with
  | zero => rfl
  | succ m ih =>
      unfold blue_buffer
      rw [demoIndices_succ4, List.foldl_append,
        show 4 * (m + 1) = 4 * m + 4 by ring, List.replicate_add,
        show List.replicate 4 (0 : ℕ) = [0, 0, 0, 0] from rfl,
        foldl_write_append demoWriteBlue_length demoWriteBlue_append _ _ _
          (fun i hi => by
            rw [List.length_replicate]
            have hm := (mem_demoIndices (4 * m) i).mp hi
            omega)]
      rw [List.foldl_cons, List.foldl_nil]
      rw [show (demoIndices (4 * m)).foldl demoWriteBlue
          (List.replicate (4 * m) 0) = blue_buffer (4 * m) from rfl, ih]
      have hL : ((List.replicate m bluePixel).flatten).length = 4 * m := by
        rw [length_flatten_replicate]
        show m * 4 = 4 * m
        ring
      rw [← hL, demoWriteBlue_at_end, List.replicate_succ',
        List.flatten_append]
      rfl

/- ### Claim theorems for the image bank and the shared index range -/

/-- C5 counterexample: when exactly one of the two configured images loads
(here the first decodes to a buffer and the second is missing), the bank has
length 1, not 2. -/
theorem bank_length_two_counterexample :
    (buildImageBank [some [0, 0, 0, 0], none]).length ≠ 2 := by decide

/-- C5 amended: the bank's length is 2 when both configured images load and
when neither does (the demo pair is synthesized), but when exactly one loads
the length is 1; in general it equals the number of successful loads when at
least one succeeds and 2 otherwise. -/
theorem bank_length_spec (loads : List (Option (List ℕ))) :
    (buildImageBank loads).length =
      if (loadImages loads).isEmpty then 2 else (loadImages loads).length := by
  cases hb : (loadImages loads).isEmpty <;> simp [buildImageBank, hb]

/-- C4 counterexample: with a bank of exactly one loaded image, a single loud
block drives the stored index to 1, which is not a valid index of the
length-1 bank. -/
theorem index_range_counterexample :
    ¬ indexAfter [[(1 : ℝ)]] <
        (buildImageBank [some [0, 0, 0, 0], none]).length := by
  have h1 : indexAfter [[(1 : ℝ)]] = 1 := by
    unfold indexAfter
    rw [List.foldl_cons, List.foldl_nil]
    exact audioCallback_one 0
  have h2 : (buildImageBank [some [0, 0, 0, 0], none]).length = 1 := by decide
  rw [h1, h2]
  omega

/-- C4 amended: the shared index is 0 before any audio block and after every
block sequence it is 0 or 1; whenever the constructed bank has at least two
buffers (as when both images load, or when none do and the demo pair is
synthesized) every held value is a valid bank index. The unqualified range
claim fails when exactly one image loads, as the counterexample shows. -/
theorem index_zero_one_in_range (blocks : List (List ℝ))
    (loads : List (Option (List ℕ))) :
    indexAfter [] = 0 ∧ indexAfter blocks ≤ 1 ∧
    (2 ≤ (buildImageBank loads).length →
      indexAfter blocks < (buildImageBank loads).length) := by
  refine ⟨rfl, indexAfter_le_one blocks, fun h => ?_⟩
  have hle := indexAfter_le_one blocks
  omega

/-- C4 witness: after the loud block [1] the index 1 is a valid index of the
two-buffer demo bank obtained when neither image loads. -/
theorem index_zero_one_in_range_witness :
    2 ≤ (buildImageBank [none, none]).length ∧
    indexAfter [[(1 : ℝ)]] < (buildImageBank [none, none]).length :=
  ⟨by decide,
    (index_zero_one_in_range [[(1 : ℝ)]] [none, none]).2.2 (by decide)⟩

/-- C8: when no configured source image loads, the bank consists of exactly
the two demo buffers; each has byte length width * height * 4, each is one
flat 4-byte RGBA color repeated for every one of the width * height pixels,
both alpha bytes are 0xff (fully opaque), and the two colors differ. -/
theorem demo_bank_spec (loads : List (Option (List ℕ)))
    (h : loadImages loads = []) :
    buildImageBank loads =
      [(List.replicate (width * height) redPixel).flatten,
       (List.replicate (width * height) bluePixel).flatten] ∧
    (∀ buf ∈ buildImageBank loads, buf.length = width * height * 4) ∧
    redPixel.length = 4 ∧ bluePixel.length = 4 ∧
    redPixel[3]? = some 0xff ∧ bluePixel[3]? = some 0xff ∧
    redPixel ≠ bluePixel := by
  have hbank : buildImageBank loads =
      [red_buffer (width * height * 4), blue_buffer (width * height * 4)] := by
    unfold buildImageBank
    rw [h]
    rfl
  have h4 : width * height * 4 = 4 * (width * height) := by ring
  have hr : red_buffer (width * height * 4) =
      (List.replicate (width * height) redPixel).flatten := by
    rw [h4, red_buffer_flatten]
  have hb : blue_buffer (width * height * 4) =
      (List.replicate (width * height) bluePixel).flatten := by
    rw [h4, blue_buffer_flatten]
  have hbank2 : buildImageBank loads =
      [(List.replicate (width * height) redPixel).flatten,
       (List.replicate (width * height) bluePixel).flatten] := by
    rw [hbank, hr, hb]
  refine ⟨hbank2, ?_, rfl, rfl, rfl, rfl, by decide⟩
  intro buf hbuf
  rw [hbank2] at hbuf
  rcases List.mem_cons.mp hbuf with h1 | hbuf
  · rw [h1, length_flatten_replicate]
    rfl
  · rw [List.mem_singleton.mp hbuf, length_flatten_replicate]
    rfl

/-- C8 witness: with both configured paths failing to load, the bank has
exactly two buffers and the two demo colors differ. -/
theorem demo_bank_spec_witness :
    loadImages [none, none] = [] ∧
    (buildImageBank [none, none]).length = 2 ∧
    redPixel ≠ bluePixel := by
  have hs := demo_bank_spec [none, none] rfl
  exact ⟨rfl, by rw [hs.1]; rfl, hs.2.2.2.2.2.2⟩
